import Mathlib

/-!
# Verification of the A2A Express REST adapter

A shallow embedding, in Lean 4, of the REST transport adapter of the
a2a-js server library:

* `src/server/express/utils.ts` — recursive snake_case/camelCase key
  transformation of JSON-like values (`restToInternal`, `internalToRest`);
* `src/server/express/http_rest_routes.ts` — the Express router created by
  `httpRestHandler`: route matching, capability gating, error-to-status
  mapping, SSE streaming, and response status codes.

JavaScript values are modelled by the inductive type `JsonVal`; JS objects
are association lists built left-to-right with JS property-assignment
semantics (`setKey` / `objectAssign`).  Machine characters are `Char`s
whose ASCII classes and case shifts are expressed through `Char.toNat`.
-/

namespace A2A

/-! ## Definitions -/

/-! ## ASCII character classes and case shifts

The JS source matches characters with the regex classes `[a-z]`, `[A-Z]`,
`[0-9]` and shifts case with `toUpperCase`/`toLowerCase` on the matched
ASCII letter (a shift by 32 code points). -/

/-- The regex class `[a-z]`. -/
def isLowerAscii (c : Char) : Bool := 97 ≤ c.toNat && c.toNat ≤ 122

/-- The regex class `[A-Z]`. -/
def isUpperAscii (c : Char) : Bool := 65 ≤ c.toNat && c.toNat ≤ 90

/-- The regex class `[0-9]`. -/
def isDigitAscii (c : Char) : Bool := 48 ≤ c.toNat && c.toNat ≤ 57

/-- `String.prototype.toUpperCase` on a character matched by `[a-z]`. -/
def upcase (c : Char) : Char := Char.ofNat (c.toNat - 32)

/-- `String.prototype.toLowerCase` on a character matched by `[A-Z]`. -/
def downcase (c : Char) : Char := Char.ofNat (c.toNat + 32)

/-! ## Case conversion (`toCamelCase`, `toSnakeCase` of `utils.ts`)

`toCamelCase` embeds `str.replace(/_([a-z])/g, (_, letter) =>
letter.toUpperCase())`: a left-to-right, non-overlapping scan that
replaces each underscore-followed-by-lowercase-letter pair by the
upper-cased letter.  `toSnakeCase` embeds
`str.replace(/[A-Z]/g, (letter) => '_' + letter.toLowerCase())`. -/

def camelChars : List Char → List Char
  | [] => []
  | [c] => [c]
  | c :: d :: rest =>
      if c = '_' ∧ isLowerAscii d then upcase d :: camelChars rest
      else c :: camelChars (d :: rest)

def snakeChars : List Char → List Char
  | [] => []
  | c :: rest =>
      if isUpperAscii c then '_' :: downcase c :: snakeChars rest
      else c :: snakeChars rest

def toCamelCase (s : String) : String := ⟨camelChars s.data⟩

def toSnakeCase (s : String) : String := ⟨snakeChars s.data⟩

/-- A pure snake_case key: lowercase ASCII letters, digits and underscores
only (no uppercase letters anywhere). -/
def isSnakeKey (s : String) : Bool :=
  s.data.all fun c => isLowerAscii c || isDigitAscii c || c == '_'

/-! ## JSON-like values and key transformation (`utils.ts`)

A JavaScript value reaching `transformKeys` is `null`, a primitive, an
array, or a plain object.  Objects are ordered association lists; building
`result[key] = value` left to right is JS property assignment: an existing
key keeps its position and receives the new value, a fresh key is appended. -/

inductive JsonVal where
  | null
  | bool (b : Bool)
  | num (n : Int)
  | str (s : String)
  | arr (elems : List JsonVal)
  | obj (entries : List (String × JsonVal))

/-- JS property assignment `o[k] = v` on an object represented as an
ordered association list. -/
def setKey : List (String × JsonVal) → String → JsonVal → List (String × JsonVal)
  | [], k, v => [(k, v)]
  | (k', v') :: rest, k, v =>
      if k' = k then (k', v) :: rest else (k', v') :: setKey rest k v

/-- Builds the JS `result` object of `transformKeys` by assigning the
listed entries left to right into `acc`. -/
def objectAssign (acc : List (String × JsonVal)) :
    List (String × JsonVal) → List (String × JsonVal)
  | [] => acc
  | (k, v) :: rest => objectAssign (setKey acc k v) rest

/-- `transformKeys(data, keyTransform, recurse)` of `utils.ts`, with the
`recurse` argument tied to the function itself as in `restToInternal` /
`internalToRest`: primitives and `null` are returned unchanged, arrays are
mapped element-wise, and objects are rebuilt entry by entry with the key
transformed and the value recursed. -/
def transformKeys (keyTransform : String → String) : JsonVal → JsonVal
  | .null => .null
  | .bool b => .bool b
  | .num n => .num n
  | .str s => .str s
  | .arr elems => .arr (elems.attach.map fun e => transformKeys keyTransform e.1)
  | .obj entries => .obj (objectAssign []
      (entries.attach.map fun kv => (keyTransform kv.1.1, transformKeys keyTransform kv.1.2)))
termination_by v => sizeOf v
decreasing_by
  · have := List.sizeOf_lt_of_mem e.2
    simp only [JsonVal.arr.sizeOf_spec]
    omega
  · have h1 := List.sizeOf_lt_of_mem kv.2
    have h2 : sizeOf kv.1.2 < sizeOf kv.1 := by
      obtain ⟨k, v⟩ := kv.1
      simp only [Prod.mk.sizeOf_spec]
      omega
    simp only [JsonVal.obj.sizeOf_spec]
    omega

/-- `restToInternal` of `utils.ts`: recursively transforms snake_case keys
to camelCase. -/
def restToInternal (data : JsonVal) : JsonVal := transformKeys toCamelCase data

/-- `internalToRest` of `utils.ts`: recursively transforms camelCase keys
to snake_case. -/
def internalToRest (data : JsonVal) : JsonVal := transformKeys toSnakeCase data

/-! ### Association-list lemmas for JS object construction -/

/-- The keys of an object, in order. -/
def keysOf (l : List (String × JsonVal)) : List String := l.map Prod.fst

/-- A value whose objects all have pairwise-distinct, pure snake_case keys,
at every nesting level: the shape of a REST-side JSON body whose keys are
the snake halves of snake_case/camelCase pairs. -/
def snakeShaped : JsonVal → Bool
  | .null => true
  | .bool _ => true
  | .num _ => true
  | .str _ => true
  | .arr elems => elems.attach.all fun e => snakeShaped e.1
  | .obj entries =>
      decide (keysOf entries).Nodup &&
      (entries.all fun kv => isSnakeKey kv.1) &&
      (entries.attach.all fun kv => snakeShaped kv.1.2)
termination_by v => sizeOf v
decreasing_by
  · have := List.sizeOf_lt_of_mem e.2
    simp only [JsonVal.arr.sizeOf_spec]
    omega
  · have h1 := List.sizeOf_lt_of_mem kv.2
    have h2 : sizeOf kv.1.2 < sizeOf kv.1 := by
      obtain ⟨k, v⟩ := kv.1
      simp only [Prod.mk.sizeOf_spec]
      omega
    simp only [JsonVal.obj.sizeOf_spec]
    omega

/-! ## The REST adapter (`http_rest_routes.ts`)

`httpRestHandler` wires an Express router over an injected
`A2ARequestHandler`.  The handler itself is an external collaborator: its
operations are modelled by an oracle mapping the call's arguments to
either a result or a thrown value.  Each route function also records which
handler operations it invoked, in order. -/

/-! `HTTP_STATUS` of `http_rest_routes.ts`. -/
namespace HTTP_STATUS

def OK : Nat := 200

def CREATED : Nat := 201

def ACCEPTED : Nat := 202

def NO_CONTENT : Nat := 204

def BAD_REQUEST : Nat := 400

def UNAUTHORIZED : Nat := 401

def NOT_FOUND : Nat := 404

def CONFLICT : Nat := 409

def INTERNAL_SERVER_ERROR : Nat := 500

def NOT_IMPLEMENTED : Nat := 501

end HTTP_STATUS

/-! `A2A_ERROR_CODE` of `http_rest_routes.ts`, plus the internal-error
code `-32603` (the JSON-RPC code the repository's tests assert for
`A2AError.internalError`). -/
namespace A2A_ERROR_CODE

def PARSE_ERROR : Int := -32700

def INVALID_REQUEST : Int := -32600

def METHOD_NOT_FOUND : Int := -32601

def INVALID_PARAMS : Int := -32602

def TASK_NOT_FOUND : Int := -32001

def TASK_NOT_CANCELABLE : Int := -32002

def PUSH_NOTIFICATION_NOT_SUPPORTED : Int := -32003

def UNSUPPORTED_OPERATION : Int := -32004

def UNAUTHORIZED : Int := -32005

def INTERNAL_ERROR : Int := -32603

end A2A_ERROR_CODE

/-- Modelled from the spec: the `A2AError` class (`src/server/error.ts`)
is not among the provided sources.  Per §4.5 and §4.4 of the spec a
taxonomy error carries a stable numeric code and a human-readable
message, and is serialized over REST as a `code`/`message` envelope. -/
structure A2AError where
  code : Int
  message : String

/-- The JSON-RPC-style error envelope produced by `toJSONRPCError()`. -/
structure JSONRPCError where
  code : Int
  message : String

def A2AError.toJSONRPCError (e : A2AError) : JSONRPCError := ⟨e.code, e.message⟩

def A2AError.parseError (message : String) : A2AError :=
  ⟨A2A_ERROR_CODE.PARSE_ERROR, message⟩

def A2AError.invalidRequest (message : String) : A2AError :=
  ⟨A2A_ERROR_CODE.INVALID_REQUEST, message⟩

def A2AError.methodNotFound (message : String) : A2AError :=
  ⟨A2A_ERROR_CODE.METHOD_NOT_FOUND, message⟩

def A2AError.invalidParams (message : String) : A2AError :=
  ⟨A2A_ERROR_CODE.INVALID_PARAMS, message⟩

def A2AError.taskNotFound (message : String) : A2AError :=
  ⟨A2A_ERROR_CODE.TASK_NOT_FOUND, message⟩

def A2AError.taskNotCancelable (message : String) : A2AError :=
  ⟨A2A_ERROR_CODE.TASK_NOT_CANCELABLE, message⟩

def A2AError.pushNotificationNotSupported : A2AError :=
  ⟨A2A_ERROR_CODE.PUSH_NOTIFICATION_NOT_SUPPORTED, "Push notifications are not supported"⟩

def A2AError.unsupportedOperation (message : String) : A2AError :=
  ⟨A2A_ERROR_CODE.UNSUPPORTED_OPERATION, message⟩

def A2AError.unauthorized (message : String) : A2AError :=
  ⟨A2A_ERROR_CODE.UNAUTHORIZED, message⟩

def A2AError.internalError (message : String) : A2AError :=
  ⟨A2A_ERROR_CODE.INTERNAL_ERROR, message⟩

/-- A JavaScript thrown value as seen by the adapter's catch blocks: an
`A2AError`, another `Error` instance carrying a message, or a non-`Error`
value. -/
inductive Thrown where
  | a2a (e : A2AError)
  | jsError (message : String)
  | nonError

/-- `mapErrorToStatus` of `http_rest_routes.ts` (lines 193-217). -/
def mapErrorToStatus (errorCode : Int) : Nat :=
  if errorCode = A2A_ERROR_CODE.PARSE_ERROR ∨ errorCode = A2A_ERROR_CODE.INVALID_REQUEST ∨
      errorCode = A2A_ERROR_CODE.INVALID_PARAMS then
    HTTP_STATUS.BAD_REQUEST
  else if errorCode = A2A_ERROR_CODE.METHOD_NOT_FOUND ∨
      errorCode = A2A_ERROR_CODE.TASK_NOT_FOUND then
    HTTP_STATUS.NOT_FOUND
  else if errorCode = A2A_ERROR_CODE.TASK_NOT_CANCELABLE then
    HTTP_STATUS.CONFLICT
  else if errorCode = A2A_ERROR_CODE.PUSH_NOTIFICATION_NOT_SUPPORTED ∨
      errorCode = A2A_ERROR_CODE.UNSUPPORTED_OPERATION then
    HTTP_STATUS.NOT_IMPLEMENTED
  else if errorCode = A2A_ERROR_CODE.UNAUTHORIZED then
    HTTP_STATUS.UNAUTHORIZED
  else
    HTTP_STATUS.INTERNAL_SERVER_ERROR

/-- A body passed to `res.json`. -/
inductive ReplyBody where
  | json (v : JsonVal)
  | rpcError (e : JSONRPCError)

/-- Wire actions performed on the Express `Response` of an SSE stream. -/
inductive SSEItem where
  | header (k v : String)
  | flushHeaders
  | write (s : String)
  | endConn

/-- A completed REST response: either a status code with an optional JSON
body, or an SSE stream.  A streaming response never sets an explicit
status, so Express sends its default `200 OK` with the flushed headers. -/
inductive RouteResponse where
  | reply (status : Nat) (body : Option ReplyBody)
  | sse (trace : List SSEItem)

def RouteResponse.statusOf : RouteResponse → Nat
  | .reply s _ => s
  | .sse _ => HTTP_STATUS.OK

/-- `sendResponse` (lines 119-126): set the status; a `204 No Content`
response ends without a body, anything else is sent with `res.json`. -/
def sendResponse (statusCode : Nat) (body : Option ReplyBody) : RouteResponse :=
  if statusCode = HTTP_STATUS.NO_CONTENT then .reply statusCode none
  else .reply statusCode body

/-- The error normalization inside `handleError` (lines 238-242): an
`A2AError` passes through, any other `Error` is wrapped as
`internalError` keeping only its message, anything else becomes
`internalError` with a fixed message. -/
def normalizeError (error : Thrown) : A2AError :=
  match error with
  | .a2a e => e
  | .jsError m => A2AError.internalError m
  | .nonError => A2AError.internalError "Internal server error"

/-- What `handleError` does overall. -/
inductive ErrorOutcome where
  | closeConnection
  | alreadyClosed
  | respond (r : RouteResponse)

/-- The error response built by `handleError` when headers have not been
sent yet. -/
def errorReply (error : Thrown) : RouteResponse :=
  sendResponse (mapErrorToStatus (normalizeError error).code)
    (some (.rpcError (normalizeError error).toJSONRPCError))

/-- `handleError` (lines 228-247): if headers were already sent (an SSE
stream is underway) just close the connection, otherwise normalize the
error, map its code to an HTTP status and send the serialized error. -/
def handleError (headersSent writableEnded : Bool) (error : Thrown) : ErrorOutcome :=
  if headersSent then
    if !writableEnded then .closeConnection else .alreadyClosed
  else
    .respond (errorReply error)

/-- The `capabilities` object of the agent card (both fields optional). -/
structure AgentCapabilities where
  streaming : Option Bool
  pushNotifications : Option Bool

structure AgentCard where
  capabilities : Option AgentCapabilities

inductive Capability where
  | streaming
  | pushNotifications

/-- The truthiness of `agentCard.capabilities?.[capability]`. -/
def AgentCard.hasCapability (card : AgentCard) (c : Capability) : Bool :=
  match card.capabilities with
  | none => false
  | some caps =>
      match c with
      | .streaming => caps.streaming.getD false
      | .pushNotifications => caps.pushNotifications.getD false

/-- `requireCapability` (lines 255-269): look up the agent card and throw
`pushNotificationNotSupported`/`unsupportedOperation` when the requested
capability is not enabled. -/
def requireCapability (card : AgentCard) (c : Capability) : Except A2AError Unit :=
  if card.hasCapability c then .ok ()
  else
    match c with
    | .pushNotifications => .error A2AError.pushNotificationNotSupported
    | .streaming => .error (A2AError.unsupportedOperation "Agent does not support streaming")

/-! ## SSE streaming (`sendStreamResponse`, lines 144-182) -/

/-- `SSE_HEADERS` of `http_rest_routes.ts`. -/
def SSE_HEADERS : List (String × String) :=
  [("Content-Type", "text/event-stream"),
   ("Cache-Control", "no-cache"),
   ("Connection", "keep-alive"),
   ("X-Accel-Buffering", "no")]

/-- The observed behavior of the async generator returned by
`sendMessageStream`/`resubscribe`: the events it yields, followed by
either normal exhaustion (`none`) or a raised value (`some thrown`). -/
structure StreamRun where
  events : List JsonVal
  outcome : Option Thrown

/-- The error normalization in the catch of `sendStreamResponse`
(lines 165-169): non-`A2AError` failures become `internalError`, keeping
an `Error`'s message and falling back to a fixed message otherwise. -/
def normalizeStreamError (streamError : Thrown) : A2AError :=
  match streamError with
  | .a2a e => e
  | .jsError m => A2AError.internalError m
  | .nonError => A2AError.internalError "Streaming error"

/-- A rendering of `JSON.stringify`; the exact text is irrelevant to the
properties proved about the stream, only that each frame carries the
serialized value. -/
def jsonSerialize : JsonVal → String
  | .null => "null"
  | .bool b => if b then "true" else "false"
  | .num n => toString n
  | .str s => "\"" ++ s ++ "\""
  | .arr elems =>
      "[" ++ String.intercalate "," (elems.attach.map fun e => jsonSerialize e.1) ++ "]"
  | .obj entries =>
      "\x7b" ++ String.intercalate ","
        (entries.attach.map fun kv => "\"" ++ kv.1.1 ++ "\":" ++ jsonSerialize kv.1.2) ++ "\x7d"
termination_by v => sizeOf v
decreasing_by
  · have := List.sizeOf_lt_of_mem e.2
    simp only [JsonVal.arr.sizeOf_spec]
    omega
  · have h1 := List.sizeOf_lt_of_mem kv.2
    have h2 : sizeOf kv.1.2 < sizeOf kv.1 := by
      obtain ⟨k, v⟩ := kv.1
      simp only [Prod.mk.sizeOf_spec]
      omega
    simp only [JsonVal.obj.sizeOf_spec]
    omega

def serializeRpcError (e : JSONRPCError) : String :=
  "\x7b\"code\":" ++ toString e.code ++ ",\"message\":\"" ++ e.message ++ "\"\x7d"

/-- The frames written by the `for await` loop: for each event an `id:`
line stamped with `Date.now()` (the clock reading at that iteration)
followed by a `data:` line with the serialized event. -/
def writeEvents (clock : Nat → Nat) : Nat → List JsonVal → List SSEItem
  | _, [] => []
  | i, e :: rest =>
      .write ("id: " ++ toString (clock i) ++ "\n") ::
      .write ("data: " ++ jsonSerialize e ++ "\n\n") ::
      writeEvents clock (i + 1) rest

/-- The frames of the catch block (lines 172-175): one named `error`
event frame carrying the serialized normalized error. -/
def errorFrames (streamError : Thrown) : List SSEItem :=
  [.write "event: error\n",
   .write ("data: " ++
     serializeRpcError (normalizeStreamError streamError).toJSONRPCError ++ "\n\n")]

/-- `sendStreamResponse` (lines 144-182): set the SSE headers and flush
them, stream every yielded event as an `id:`/`data:` pair, on a stream
error write the single named `error` frame, and in all cases end the
connection.  `clock i` is the `Date.now()` reading at the i-th event. -/
def sendStreamResponse (clock : Nat → Nat) (stream : StreamRun) : List SSEItem :=
  (SSE_HEADERS.map fun kv => SSEItem.header kv.1 kv.2) ++ [SSEItem.flushHeaders] ++
  writeEvents clock 0 stream.events ++
  (match stream.outcome with
   | none => []
   | some streamError => errorFrames streamError) ++
  [SSEItem.endConn]

/-! ## Route patterns and parameter parsing -/

/-- Lower-casing of ASCII letters, for the `/i` regex flag and Express's
case-insensitive (default) path matching. -/
def lowerChars (l : List Char) : List Char :=
  l.map fun c => if isUpperAscii c then downcase c else c

def lowerStr (s : String) : String := ⟨lowerChars s.data⟩

/-- `ROUTE_PATTERN.MESSAGE_ACTION = /^\/v1\/message:(send|stream)$/i`:
the action is only captured when it is literally `send` or `stream`
(case-insensitively); the capture keeps the original case. -/
def matchMessageAction (path : String) : Option String :=
  if lowerStr path = "/v1/message:send" ∨ lowerStr path = "/v1/message:stream" then
    some ⟨path.data.drop 12⟩
  else none

/-- `ROUTE_PATTERN.TASK_ACTION = /^\/v1\/tasks\/([^\/\:]+):([a-z]+)$/i`:
a non-empty task id without `/` or `:`, a colon, then a non-empty,
purely alphabetic action (case-insensitive), anchored at the end. -/
def matchTaskAction (path : String) : Option (String × String) :=
  let cs := path.data
  if lowerChars (cs.take 10) = "/v1/tasks/".data then
    let rest := cs.drop 10
    let taskId := rest.takeWhile fun c => c ≠ '/' && c ≠ ':'
    match rest.drop taskId.length with
    | ':' :: action =>
        if taskId ≠ [] ∧ action ≠ [] ∧
            action.all (fun c => isLowerAscii c || isUpperAscii c) then
          some (⟨taskId⟩, ⟨action⟩)
        else none
    | _ => none
  else none

/-! `ACTION` of `http_rest_routes.ts`. -/
namespace ACTION

def SEND : String := "send"

def STREAM : String := "stream"

def CANCEL : String := "cancel"

def SUBSCRIBE : String := "subscribe"

end ACTION

/-- Splitting a character list at `/` separators (the semantics of
`path.split('/')`). -/
def splitSlash : List Char → List String
  | [] => [""]
  | c :: rest =>
      let segs := splitSlash rest
      if c = '/' then "" :: segs
      else
        match segs with
        | [] => [⟨[c]⟩]
        | s :: tl => (⟨c :: s.data⟩ : String) :: tl

/-- The path split into segments (Express tolerates one trailing slash
with its default `strict: false`). -/
def pathSegments (path : String) : List String :=
  let segs := (splitSlash path.data).drop 1
  match segs.getLast? with
  | some "" => segs.dropLast
  | _ => segs

/-- Case-insensitive comparison of a path segment with a static route
segment (Express default `caseSensitive: false`). -/
def matchStatic (seg pat : String) : Bool := lowerStr seg = lowerStr pat

/-- `GET /v1/card`. -/
def matchCard (path : String) : Bool :=
  match pathSegments path with
  | [a, b] => matchStatic a "v1" && matchStatic b "card"
  | _ => false

/-- `/v1/tasks/:taskId` — the parameter matches one non-empty segment. -/
def matchGetTask (path : String) : Option String :=
  match pathSegments path with
  | [a, b, taskId] =>
      if matchStatic a "v1" && matchStatic b "tasks" && taskId ≠ "" then some taskId
      else none
  | _ => none

/-- `/v1/tasks/:taskId/pushNotificationConfigs`. -/
def matchPushConfigs (path : String) : Option String :=
  match pathSegments path with
  | [a, b, taskId, c] =>
      if matchStatic a "v1" && matchStatic b "tasks" && taskId ≠ "" &&
          matchStatic c "pushNotificationConfigs" then some taskId
      else none
  | _ => none

/-- `/v1/tasks/:taskId/pushNotificationConfigs/:configId`. -/
def matchPushConfigId (path : String) : Option (String × String) :=
  match pathSegments path with
  | [a, b, taskId, c, configId] =>
      if matchStatic a "v1" && matchStatic b "tasks" && taskId ≠ "" &&
          matchStatic c "pushNotificationConfigs" && configId ≠ "" then
        some (taskId, configId)
      else none
  | _ => none

/-- The value of the leading run of decimal digits, `none` when there is
no digit (`parseInt` yields `NaN`); trailing non-digits are ignored. -/
def leadingDigits (l : List Char) : Option Nat :=
  let ds := l.takeWhile isDigitAscii
  if ds.isEmpty then none
  else some (ds.foldl (fun acc c => acc * 10 + (c.toNat - 48)) 0)

/-- `parseInt(String(value), 10)`: skip leading whitespace, an optional
sign, then the leading run of decimal digits. -/
def jsParseInt10 (s : String) : Option Int :=
  match s.data.dropWhile Char.isWhitespace with
  | '-' :: rest => (leadingDigits rest).map fun n => -(n : Int)
  | '+' :: rest => (leadingDigits rest).map fun n => (n : Int)
  | rest => (leadingDigits rest).map fun n => (n : Int)

/-- `parseHistoryLength` (lines 305-321): missing value, `NaN` and
negative parses raise `invalidParams`; anything else returns the parsed
integer. -/
def parseHistoryLength (value : Option String) : Except A2AError Int :=
  match value with
  | none => .error (A2AError.invalidParams "historyLength is required")
  | some s =>
      match jsParseInt10 s with
      | none => .error (A2AError.invalidParams "historyLength must be a valid integer")
      | some parsed =>
          if parsed < 0 then .error (A2AError.invalidParams "historyLength must be non-negative")
          else .ok parsed

/-! ## The request handler as an oracle, and the route handlers -/

/-- One call into the injected `A2ARequestHandler`.  `getAgentCard` reads
the static descriptor; every other operation is backed by the executor or
the task store. -/
inductive HandlerCall where
  | getAgentCard
  | getAuthenticatedExtendedAgentCard
  | sendMessage
  | sendMessageStream
  | getTask
  | cancelTask
  | resubscribe
  | setTaskPushNotificationConfig
  | getTaskPushNotificationConfig
  | listTaskPushNotificationConfigs
  | deleteTaskPushNotificationConfig
deriving DecidableEq

/-- Whether a handler call reaches the executor or the store (everything
except the static agent-card read used by the capability check). -/
def HandlerCall.isExecutorOrStore : HandlerCall → Bool
  | .getAgentCard => false
  | _ => true

/-- The behavior of the injected `A2ARequestHandler` as observed by the
adapter: for each operation, the value returned or the value thrown for
the arguments of the current request.  `getAgentCard` (used by the
capability check) is assumed to resolve to the static card. -/
structure RequestHandlerOracle where
  getAgentCard : AgentCard
  getAuthenticatedExtendedAgentCard : Except Thrown JsonVal
  sendMessage : JsonVal → Except Thrown JsonVal
  sendMessageStream : JsonVal → Except Thrown StreamRun
  getTask : String → Option Int → Except Thrown JsonVal
  cancelTask : String → Except Thrown JsonVal
  resubscribe : String → Except Thrown StreamRun
  setTaskPushNotificationConfig : JsonVal → String → Except Thrown JsonVal
  getTaskPushNotificationConfig : String → String → Except Thrown JsonVal
  listTaskPushNotificationConfigs : String → Except Thrown JsonVal
  deleteTaskPushNotificationConfig : String → String → Except Thrown Unit

/-- `GET /v1/card` (lines 352-355). -/
def getCardRoute (o : RequestHandlerOracle) : List HandlerCall × RouteResponse :=
  match o.getAuthenticatedExtendedAgentCard with
  | .ok result =>
      ([.getAuthenticatedExtendedAgentCard], sendResponse HTTP_STATUS.OK (some (.json result)))
  | .error e => ([.getAuthenticatedExtendedAgentCard], errorReply e)

/-- `POST` on `ROUTE_PATTERN.MESSAGE_ACTION` (lines 372-390): `:stream`
checks the streaming capability then streams; `:send` sends; any other
captured action raises `methodNotFound`. -/
def messageActionRoute (o : RequestHandlerOracle) (clock : Nat → Nat)
    (path : String) (body : JsonVal) : List HandlerCall × RouteResponse :=
  match matchMessageAction path with
  | none => ([], errorReply (.a2a (A2AError.methodNotFound "Invalid action path")))
  | some action =>
      if action = ACTION.STREAM then
        match requireCapability o.getAgentCard .streaming with
        | .error e => ([.getAgentCard], errorReply (.a2a e))
        | .ok _ =>
            match o.sendMessageStream body with
            | .ok stream =>
                ([.getAgentCard, .sendMessageStream], .sse (sendStreamResponse clock stream))
            | .error e => ([.getAgentCard, .sendMessageStream], errorReply e)
      else if action = ACTION.SEND then
        match o.sendMessage body with
        | .ok result => ([.sendMessage], sendResponse HTTP_STATUS.CREATED (some (.json result)))
        | .error e => ([.sendMessage], errorReply e)
      else
        ([], errorReply (.a2a (A2AError.methodNotFound ("Unknown message action: " ++ action))))

/-- `GET /v1/tasks/:taskId` (lines 403-415). -/
def getTaskRoute (o : RequestHandlerOracle) (taskId : String)
    (historyLength : Option String) : List HandlerCall × RouteResponse :=
  match historyLength with
  | none =>
      match o.getTask taskId none with
      | .ok result => ([.getTask], sendResponse HTTP_STATUS.OK (some (.json result)))
      | .error e => ([.getTask], errorReply e)
  | some raw =>
      match parseHistoryLength (some raw) with
      | .error a2aErr => ([], errorReply (.a2a a2aErr))
      | .ok n =>
          match o.getTask taskId (some n) with
          | .ok result => ([.getTask], sendResponse HTTP_STATUS.OK (some (.json result)))
          | .error e => ([.getTask], errorReply e)

/-- `POST` on `ROUTE_PATTERN.TASK_ACTION` (lines 433-457): `:cancel`
cancels, `:subscribe` checks the streaming capability then resubscribes,
any other captured action raises `methodNotFound`. -/
def taskActionRoute (o : RequestHandlerOracle) (clock : Nat → Nat)
    (path : String) : List HandlerCall × RouteResponse :=
  match matchTaskAction path with
  | none => ([], errorReply (.a2a (A2AError.methodNotFound "Invalid action path")))
  | some (taskId, action) =>
      if taskId = "" then
        ([], errorReply (.a2a (A2AError.invalidParams "Task ID is required")))
      else if action = ACTION.CANCEL then
        match o.cancelTask taskId with
        | .ok result => ([.cancelTask], sendResponse HTTP_STATUS.ACCEPTED (some (.json result)))
        | .error e => ([.cancelTask], errorReply e)
      else if action = ACTION.SUBSCRIBE then
        match requireCapability o.getAgentCard .streaming with
        | .error e => ([.getAgentCard], errorReply (.a2a e))
        | .ok _ =>
            match o.resubscribe taskId with
            | .ok stream =>
                ([.getAgentCard, .resubscribe], .sse (sendStreamResponse clock stream))
            | .error e => ([.getAgentCard, .resubscribe], errorReply e)
      else
        ([], errorReply (.a2a (A2AError.methodNotFound ("Unknown task action: " ++ action))))

/-- `POST /v1/tasks/:taskId/pushNotificationConfigs` (lines 471-481):
the only push-config route with a capability check. -/
def createPushConfigRoute (o : RequestHandlerOracle) (taskId : String)
    (body : JsonVal) : List HandlerCall × RouteResponse :=
  match requireCapability o.getAgentCard .pushNotifications with
  | .error e => ([.getAgentCard], errorReply (.a2a e))
  | .ok _ =>
      match o.setTaskPushNotificationConfig body taskId with
      | .ok result =>
          ([.getAgentCard, .setTaskPushNotificationConfig],
            sendResponse HTTP_STATUS.CREATED (some (.json result)))
      | .error e => ([.getAgentCard, .setTaskPushNotificationConfig], errorReply e)

/-- `GET /v1/tasks/:taskId/pushNotificationConfigs` (lines 492-497):
goes straight to the store, with no capability check. -/
def listPushConfigsRoute (o : RequestHandlerOracle) (taskId : String) :
    List HandlerCall × RouteResponse :=
  match o.listTaskPushNotificationConfigs taskId with
  | .ok result =>
      ([.listTaskPushNotificationConfigs], sendResponse HTTP_STATUS.OK (some (.json result)))
  | .error e => ([.listTaskPushNotificationConfigs], errorReply e)

/-- `GET /v1/tasks/:taskId/pushNotificationConfigs/:configId`
(lines 509-515): no capability check. -/
def getPushConfigRoute (o : RequestHandlerOracle) (taskId configId : String) :
    List HandlerCall × RouteResponse :=
  match o.getTaskPushNotificationConfig taskId configId with
  | .ok result =>
      ([.getTaskPushNotificationConfig], sendResponse HTTP_STATUS.OK (some (.json result)))
  | .error e => ([.getTaskPushNotificationConfig], errorReply e)

/-- `DELETE /v1/tasks/:taskId/pushNotificationConfigs/:configId`
(lines 527-533): no capability check; success is `204` with no body. -/
def deletePushConfigRoute (o : RequestHandlerOracle) (taskId configId : String) :
    List HandlerCall × RouteResponse :=
  match o.deleteTaskPushNotificationConfig taskId configId with
  | .ok _ => ([.deleteTaskPushNotificationConfig], sendResponse HTTP_STATUS.NO_CONTENT none)
  | .error e => ([.deleteTaskPushNotificationConfig], errorReply e)

inductive Method where
  | get
  | post
  | delete

/-- An incoming REST request after Express body parsing: method, raw
path, parsed JSON body, and the `historyLength` query value if present. -/
structure HttpRequest where
  method : Method
  path : String
  body : JsonVal
  historyLength : Option String

/-- Either a route handled the request, or no registered route matched
and Express falls through to its generic not-found response, which
carries no taxonomy error body. -/
inductive DispatchResult where
  | routed (calls : List HandlerCall) (response : RouteResponse)
  | fallthrough

/-- The router assembled by `httpRestHandler`, trying the registered
routes in registration order. -/
def dispatch (o : RequestHandlerOracle) (clock : Nat → Nat) (req : HttpRequest) :
    DispatchResult :=
  match req.method with
  | .get =>
      if matchCard req.path then
        .routed (getCardRoute o).1 (getCardRoute o).2
      else
        match matchGetTask req.path with
        | some taskId =>
            .routed (getTaskRoute o taskId req.historyLength).1
              (getTaskRoute o taskId req.historyLength).2
        | none =>
            match matchPushConfigs req.path with
            | some taskId =>
                .routed (listPushConfigsRoute o taskId).1 (listPushConfigsRoute o taskId).2
            | none =>
                match matchPushConfigId req.path with
                | some (taskId, configId) =>
                    .routed (getPushConfigRoute o taskId configId).1
                      (getPushConfigRoute o taskId configId).2
                | none => .fallthrough
  | .post =>
      if (matchMessageAction req.path).isSome then
        .routed (messageActionRoute o clock req.path req.body).1
          (messageActionRoute o clock req.path req.body).2
      else if (matchTaskAction req.path).isSome then
        .routed (taskActionRoute o clock req.path).1 (taskActionRoute o clock req.path).2
      else
        match matchPushConfigs req.path with
        | some taskId =>
            .routed (createPushConfigRoute o taskId req.body).1
              (createPushConfigRoute o taskId req.body).2
        | none => .fallthrough
  | .delete =>
      match matchPushConfigId req.path with
      | some (taskId, configId) =>
          .routed (deletePushConfigRoute o taskId configId).1
            (deletePushConfigRoute o taskId configId).2
      | none => .fallthrough

/-- Whether an SSE item is the line naming the `error` event. -/
def isErrorEventFrame : SSEItem → Bool
  | .write s => s = "event: error\n"
  | _ => false

/-- An agent card with every capability enabled. -/
def demoCard : AgentCard := ⟨some ⟨some true, some true⟩⟩

/-- An agent card with streaming and push notifications disabled. -/
def noCapCard : AgentCard := ⟨some ⟨some false, some false⟩⟩

/-- A request handler whose operations all succeed; `getTask` reports the
`historyLength` it received (as a number, or `null` when absent). -/
def demoOracle : RequestHandlerOracle :=
  ⟨demoCard, .ok .null, fun _ => .ok .null, fun _ => .ok ⟨[], none⟩,
   fun _ h => .ok (match h with | some k => .num k | none => .null),
   fun _ => .ok .null, fun _ => .ok ⟨[], none⟩,
   fun _ _ => .ok .null, fun _ _ => .ok .null, fun _ => .ok .null,
   fun _ _ => .ok ()⟩

/-- The same all-succeeding handler behind a card with no capabilities. -/
def noCapOracle : RequestHandlerOracle :=
  ⟨noCapCard, .ok .null, fun _ => .ok .null, fun _ => .ok ⟨[], none⟩,
   fun _ h => .ok (match h with | some k => .num k | none => .null),
   fun _ => .ok .null, fun _ => .ok ⟨[], none⟩,
   fun _ _ => .ok .null, fun _ _ => .ok .null, fun _ => .ok .null,
   fun _ _ => .ok ()⟩

/-! ## Theorems -/

theorem toNat_ofNat_valid {n : Nat} (h : n < 55296) : (Char.ofNat n).toNat = n := by
  have hv : n.isValidChar := Or.inl h
  rw [Char.ofNat, dif_pos hv]
  simp [Char.ofNatAux, Char.toNat, UInt32.toNat]

theorem char_eq_of_toNat_eq {c d : Char} (h : c.toNat = d.toNat) : c = d := by
  have h2 := congrArg Char.ofNat h
  rwa [Char.ofNat_toNat, Char.ofNat_toNat] at h2

theorem isLowerAscii_iff {c : Char} :
    isLowerAscii c = true ↔ 97 ≤ c.toNat ∧ c.toNat ≤ 122 := by
  simp [isLowerAscii]

theorem isUpperAscii_iff {c : Char} :
    isUpperAscii c = true ↔ 65 ≤ c.toNat ∧ c.toNat ≤ 90 := by
  simp [isUpperAscii]

theorem toNat_upcase {c : Char} (h : isLowerAscii c = true) :
    (upcase c).toNat = c.toNat - 32 := by
  obtain ⟨h1, h2⟩ := isLowerAscii_iff.1 h
  exact toNat_ofNat_valid (by omega)

theorem toNat_downcase {c : Char} (h : isUpperAscii c = true) :
    (downcase c).toNat = c.toNat + 32 := by
  obtain ⟨h1, h2⟩ := isUpperAscii_iff.1 h
  exact toNat_ofNat_valid (by omega)

theorem upcase_isUpper {c : Char} (h : isLowerAscii c = true) :
    isUpperAscii (upcase c) = true := by
  obtain ⟨h1, h2⟩ := isLowerAscii_iff.1 h
  rw [isUpperAscii_iff, toNat_upcase h]
  omega

theorem upcase_not_lower {c : Char} (h : isLowerAscii c = true) :
    isLowerAscii (upcase c) = false := by
  obtain ⟨h1, h2⟩ := isLowerAscii_iff.1 h
  rw [← Bool.not_eq_true, isLowerAscii_iff, toNat_upcase h]
  omega

theorem upcase_ne_underscore {c : Char} (h : isLowerAscii c = true) :
    upcase c ≠ '_' := by
  obtain ⟨h1, h2⟩ := isLowerAscii_iff.1 h
  intro heq
  have := congrArg Char.toNat heq
  rw [toNat_upcase h] at this
  have hu : ('_' : Char).toNat = 95 := by decide
  omega

theorem downcase_upcase {c : Char} (h : isLowerAscii c = true) :
    downcase (upcase c) = c := by
  obtain ⟨h1, h2⟩ := isLowerAscii_iff.1 h
  apply char_eq_of_toNat_eq
  rw [toNat_downcase (upcase_isUpper h), toNat_upcase h]
  omega

theorem downcase_not_upper {c : Char} (h : isUpperAscii c = true) :
    isUpperAscii (downcase c) = false := by
  obtain ⟨h1, h2⟩ := isUpperAscii_iff.1 h
  rw [← Bool.not_eq_true, isUpperAscii_iff, toNat_downcase h]
  omega

theorem underscore_not_upper : isUpperAscii '_' = false := by decide

example : toCamelCase "message_id" = "messageId" := by decide

example : toSnakeCase "messageId" = "message_id" := by decide

example : toCamelCase "a__b" = "a_B" := by decide

example : toSnakeCase "a_B" = "a__b" := by decide

/-! ### Structural lemmas about the character scans -/

theorem camelChars_cons_cons (c d : Char) (rest : List Char) :
    camelChars (c :: d :: rest) =
      if c = '_' ∧ isLowerAscii d then upcase d :: camelChars rest
      else c :: camelChars (d :: rest) := by
  rw [camelChars]

theorem camelChars_cons_ne (c : Char) (l : List Char) (h : c ≠ '_') :
    camelChars (c :: l) = c :: camelChars l := by
  cases l with
  | nil => rfl
  | cons d tl =>
      rw [camelChars_cons_cons, if_neg]
      intro hc
      exact h hc.1

theorem camelChars_cons_notLower (c e : Char) (tl : List Char)
    (he : isLowerAscii e = false) :
    camelChars (c :: e :: tl) = c :: camelChars (e :: tl) := by
  rw [camelChars_cons_cons, if_neg]
  intro hcond
  rw [hcond.2] at he
  exact Bool.false_ne_true he.symm

theorem camelChars_cons_exists (d : Char) (l : List Char) :
    ∃ e tl, camelChars (d :: l) = e :: tl := by
  cases l with
  | nil => exact ⟨d, [], rfl⟩
  | cons x tl =>
      by_cases hp : d = '_' ∧ isLowerAscii x
      · exact ⟨upcase x, camelChars tl, by rw [camelChars_cons_cons, if_pos hp]⟩
      · exact ⟨d, camelChars (x :: tl), by rw [camelChars_cons_cons, if_neg hp]⟩

theorem camelChars_head_notLower (d : Char) (l : List Char)
    (hd : isLowerAscii d = false) :
    ∃ e tl, camelChars (d :: l) = e :: tl ∧ isLowerAscii e = false := by
  cases l with
  | nil => exact ⟨d, [], rfl, hd⟩
  | cons x tl =>
      by_cases h : d = '_' ∧ isLowerAscii x
      · refine ⟨upcase x, camelChars tl, ?_, upcase_not_lower h.2⟩
        rw [camelChars_cons_cons, if_pos h]
      · exact ⟨d, camelChars (x :: tl), by rw [camelChars_cons_cons, if_neg h], hd⟩

/-- Camel-casing is idempotent: it removes every underscore-before-lowercase
occurrence and the inserted uppercase letters create no new occurrence. -/
theorem camelChars_idem : ∀ l : List Char, camelChars (camelChars l) = camelChars l
  | [] => rfl
  | [_] => rfl
  | c :: d :: rest => by
      by_cases h : c = '_' ∧ isLowerAscii d
      · rw [camelChars_cons_cons, if_pos h,
          camelChars_cons_ne _ _ (upcase_ne_underscore h.2), camelChars_idem rest]
      · rw [camelChars_cons_cons, if_neg h]
        by_cases hc : c = '_'
        · have hd : isLowerAscii d = false := by
            cases ht : isLowerAscii d with
            | false => rfl
            | true => exact absurd ⟨hc, ht⟩ h
          obtain ⟨e, tl, heq, he⟩ := camelChars_head_notLower d rest hd
          rw [heq, camelChars_cons_notLower c e tl he, ← heq,
            camelChars_idem (d :: rest)]
        · rw [camelChars_cons_ne _ _ hc, camelChars_idem (d :: rest)]

theorem snakeChars_no_upper : ∀ l : List Char, ∀ c ∈ snakeChars l, isUpperAscii c = false
  | [], _, h => absurd h (List.not_mem_nil _)
  | c :: rest, e, h => by
      rw [snakeChars] at h
      cases hc : isUpperAscii c with
      | true =>
          rw [if_pos hc, List.mem_cons, List.mem_cons] at h
          rcases h with h | h | h
          · rw [h]; exact underscore_not_upper
          · rw [h]; exact downcase_not_upper hc
          · exact snakeChars_no_upper rest e h
      | false =>
          rw [if_neg (by rw [hc]; exact Bool.false_ne_true), List.mem_cons] at h
          rcases h with h | h
          · rw [h]; exact hc
          · exact snakeChars_no_upper rest e h

theorem snakeChars_fix : ∀ l : List Char, (∀ c ∈ l, isUpperAscii c = false) →
    snakeChars l = l
  | [], _ => rfl
  | c :: rest, h => by
      rw [snakeChars, if_neg, snakeChars_fix rest]
      · intro e he
        exact h e (List.mem_cons_of_mem _ he)
      · rw [h c (List.mem_cons_self _ _)]
        exact Bool.false_ne_true

/-- Snake-casing is idempotent: its output contains no uppercase letter. -/
theorem snakeChars_idem (l : List Char) : snakeChars (snakeChars l) = snakeChars l :=
  snakeChars_fix _ (snakeChars_no_upper l)

/-- On strings without uppercase ASCII letters (in particular snake_case
keys), snake-casing undoes camel-casing. -/
theorem snakeChars_camelChars : ∀ l : List Char,
    (∀ c ∈ l, isUpperAscii c = false) → snakeChars (camelChars l) = l
  | [], _ => rfl
  | [c], h => by
      rw [camelChars, snakeChars, if_neg, snakeChars]
      rw [h c (List.mem_cons_self _ _)]
      exact Bool.false_ne_true
  | c :: d :: rest, h => by
      have hc : isUpperAscii c = false := h c (List.mem_cons_self _ _)
      have hrest : ∀ e ∈ d :: rest, isUpperAscii e = false := by
        intro e he
        exact h e (List.mem_cons_of_mem _ he)
      by_cases hm : c = '_' ∧ isLowerAscii d
      · rw [camelChars_cons_cons, if_pos hm, snakeChars, if_pos (upcase_isUpper hm.2),
          downcase_upcase hm.2, hm.1,
          snakeChars_camelChars rest (fun e he => hrest e (List.mem_cons_of_mem _ he))]
      · rw [camelChars_cons_cons, if_neg hm]
        obtain ⟨e, tl, heq⟩ := camelChars_cons_exists d rest
        rw [heq, snakeChars, if_neg (by rw [hc]; exact Bool.false_ne_true), ← heq,
          snakeChars_camelChars (d :: rest) hrest]

theorem toCamelCase_idem (s : String) : toCamelCase (toCamelCase s) = toCamelCase s := by
  unfold toCamelCase
  rw [camelChars_idem]

theorem toSnakeCase_idem (s : String) : toSnakeCase (toSnakeCase s) = toSnakeCase s := by
  unfold toSnakeCase
  rw [snakeChars_idem]

theorem isSnakeKey_no_upper {s : String} (h : isSnakeKey s = true) :
    ∀ c ∈ s.data, isUpperAscii c = false := by
  intro c hc
  have hcl := (List.all_eq_true.mp h) c hc
  rcases Bool.or_eq_true_iff.mp hcl with h1 | h1
  · rw [← Bool.not_eq_true, isUpperAscii_iff]
    rcases Bool.or_eq_true_iff.mp h1 with h2 | h2
    · have := isLowerAscii_iff.mp h2
      omega
    · have h3 : 48 ≤ c.toNat ∧ c.toNat ≤ 57 := by
        simpa [isDigitAscii] using h2
      omega
  · have hc2 : c = '_' := by simpa using h1
    rw [hc2]
    exact underscore_not_upper

/-- Snake-casing is a left inverse of camel-casing on pure snake_case keys. -/
theorem toSnakeCase_toCamelCase {s : String} (h : isSnakeKey s = true) :
    toSnakeCase (toCamelCase s) = s := by
  unfold toCamelCase toSnakeCase
  rw [snakeChars_camelChars s.data (isSnakeKey_no_upper h)]

theorem transformKeys_null (f : String → String) : transformKeys f .null = .null := by
  rw [transformKeys]

theorem transformKeys_bool (f : String → String) (b : Bool) :
    transformKeys f (.bool b) = .bool b := by
  rw [transformKeys]

theorem transformKeys_num (f : String → String) (n : Int) :
    transformKeys f (.num n) = .num n := by
  rw [transformKeys]

theorem transformKeys_str (f : String → String) (s : String) :
    transformKeys f (.str s) = .str s := by
  rw [transformKeys]

theorem transformKeys_arr (f : String → String) (elems : List JsonVal) :
    transformKeys f (.arr elems) = .arr (elems.map (transformKeys f)) := by
  rw [transformKeys]
  congr 1
  exact List.attach_map_val elems (transformKeys f)

theorem transformKeys_obj (f : String → String) (entries : List (String × JsonVal)) :
    transformKeys f (.obj entries) =
      .obj (objectAssign [] (entries.map fun kv => (f kv.1, transformKeys f kv.2))) := by
  rw [transformKeys]
  congr 2
  exact List.attach_map_val entries fun kv => (f kv.1, transformKeys f kv.2)

/-- Structural induction over `JsonVal` with hypotheses for every array
element and object entry value. -/
theorem JsonVal.inductionOn {P : JsonVal → Prop}
    (hnull : P .null)
    (hbool : ∀ b, P (.bool b))
    (hnum : ∀ n, P (.num n))
    (hstr : ∀ s, P (.str s))
    (harr : ∀ elems, (∀ e ∈ elems, P e) → P (.arr elems))
    (hobj : ∀ entries, (∀ kv ∈ entries, P kv.2) → P (.obj entries)) :
    ∀ v, P v := by
  suffices h : ∀ n v, sizeOf v ≤ n → P v from fun v => h (sizeOf v) v le_rfl
  intro n
  induction n using Nat.strong_induction_on with
  | _ n ih =>
      intro v hv
      cases v with
      | null => exact hnull
      | bool b => exact hbool b
      | num m => exact hnum m
      | str s => exact hstr s
      | arr elems =>
          refine harr elems fun e he => ih (sizeOf e) ?_ e le_rfl
          have := List.sizeOf_lt_of_mem he
          simp only [JsonVal.arr.sizeOf_spec] at hv
          omega
      | obj entries =>
          refine hobj entries fun kv hkv => ih (sizeOf kv.2) ?_ kv.2 le_rfl
          have h1 := List.sizeOf_lt_of_mem hkv
          have h2 : sizeOf kv.2 < sizeOf kv := by
            obtain ⟨k, v⟩ := kv
            simp only [Prod.mk.sizeOf_spec]
            omega
          simp only [JsonVal.obj.sizeOf_spec] at hv
          omega

theorem setKey_of_not_mem : ∀ (l : List (String × JsonVal)) (k : String) (v : JsonVal),
    k ∉ keysOf l → setKey l k v = l ++ [(k, v)]
  | [], _, _, _ => rfl
  | (k', v') :: rest, k, v, h => by
      have hk : k' ≠ k := by
        intro he
        exact h (he ▸ List.mem_cons_self _ _)
      rw [setKey, if_neg hk, setKey_of_not_mem rest k v]
      · rfl
      · intro hm
        exact h (List.mem_cons_of_mem _ hm)

theorem keysOf_setKey : ∀ (l : List (String × JsonVal)) (k : String) (v : JsonVal),
    keysOf (setKey l k v) = if k ∈ keysOf l then keysOf l else keysOf l ++ [k]
  | [], k, v => by simp [setKey, keysOf]
  | (k', v') :: rest, k, v => by
      by_cases hk : k' = k
      · subst hk
        rw [setKey, if_pos rfl]
        have hm : k' ∈ keysOf ((k', v') :: rest) := by simp [keysOf]
        rw [if_pos hm]
        simp [keysOf]
      · rw [setKey, if_neg hk]
        have hiff : (k ∈ keysOf ((k', v') :: rest)) ↔ (k ∈ keysOf rest) := by
          simp only [keysOf, List.map_cons, List.mem_cons]
          constructor
          · rintro (h | h)
            · exact absurd h.symm hk
            · exact h
          · exact Or.inr
        have hrec := keysOf_setKey rest k v
        by_cases hm : k ∈ keysOf rest
        · rw [if_pos (hiff.mpr hm)]
          simp only [keysOf, List.map_cons] at hrec ⊢
          rw [hrec, if_pos (show k ∈ List.map Prod.fst rest from hm)]
        · rw [if_neg (fun hh => hm (hiff.mp hh))]
          simp only [keysOf, List.map_cons, List.cons_append] at hrec ⊢
          rw [hrec, if_neg (show k ∉ List.map Prod.fst rest from hm)]

theorem mem_setKey : ∀ {l : List (String × JsonVal)} {k : String} {v : JsonVal}
    {p : String × JsonVal}, p ∈ setKey l k v → p ∈ l ∨ p = (k, v)
  | [], k, v, p, h => by
      rw [setKey] at h
      simp only [List.mem_singleton] at h
      exact Or.inr h
  | (k', v') :: rest, k, v, p, h => by
      rw [setKey] at h
      by_cases hk : k' = k
      · rw [if_pos hk] at h
        rcases List.mem_cons.mp h with h | h
        · subst hk
          exact Or.inr (by rw [h])
        · exact Or.inl (List.mem_cons_of_mem _ h)
      · rw [if_neg hk] at h
        rcases List.mem_cons.mp h with h | h
        · exact Or.inl (h ▸ List.mem_cons_self _ _)
        · rcases mem_setKey h with h2 | h2
          · exact Or.inl (List.mem_cons_of_mem _ h2)
          · exact Or.inr h2

theorem keysOf_setKey_nodup {l : List (String × JsonVal)} {k : String} {v : JsonVal}
    (h : (keysOf l).Nodup) : (keysOf (setKey l k v)).Nodup := by
  rw [keysOf_setKey]
  by_cases hm : k ∈ keysOf l
  · rw [if_pos hm]
    exact h
  · rw [if_neg hm]
    rw [List.nodup_append]
    exact ⟨h, List.nodup_singleton k, by simpa using fun h1 => hm h1⟩

theorem objectAssign_eq_append : ∀ (acc l : List (String × JsonVal)),
    (keysOf l).Nodup → (∀ k ∈ keysOf l, k ∉ keysOf acc) →
    objectAssign acc l = acc ++ l
  | acc, [], _, _ => by
      rw [objectAssign, List.append_nil]
  | acc, (k, v) :: rest, hnodup, hdisj => by
      have h0 := List.nodup_cons.mp (show (k :: keysOf rest).Nodup from hnodup)
      have hk : k ∉ keysOf acc := hdisj k (List.mem_cons_self _ _)
      have hdisj2 : ∀ k' ∈ keysOf rest, k' ∉ keysOf (acc ++ [(k, v)]) := by
        intro k' hk'
        rw [keysOf, List.map_append, List.mem_append]
        rintro (h | h)
        · exact hdisj k' (List.mem_cons_of_mem _ hk') h
        · simp only [List.map_cons, List.map_nil, List.mem_singleton] at h
          exact h0.1 (h ▸ hk')
      rw [objectAssign, setKey_of_not_mem acc k v hk,
        objectAssign_eq_append (acc ++ [(k, v)]) rest h0.2 hdisj2, List.append_assoc,
        List.singleton_append]

theorem objectAssign_id (l : List (String × JsonVal)) (h : (keysOf l).Nodup) :
    objectAssign [] l = l := by
  rw [objectAssign_eq_append [] l h (by intro k _; simp [keysOf]), List.nil_append]

theorem mem_objectAssign : ∀ {acc l : List (String × JsonVal)} {p : String × JsonVal},
    p ∈ objectAssign acc l → p ∈ acc ∨ p ∈ l
  | acc, [], p, h => Or.inl (by rwa [objectAssign] at h)
  | acc, (k, v) :: rest, p, h => by
      rw [objectAssign] at h
      rcases mem_objectAssign h with h2 | h2
      · rcases mem_setKey h2 with h3 | h3
        · exact Or.inl h3
        · exact Or.inr (h3 ▸ List.mem_cons_self _ _)
      · exact Or.inr (List.mem_cons_of_mem _ h2)

theorem keysOf_objectAssign_nodup : ∀ (acc l : List (String × JsonVal)),
    (keysOf acc).Nodup → (keysOf (objectAssign acc l)).Nodup
  | acc, [], h => by rwa [objectAssign]
  | acc, (k, v) :: rest, h => by
      rw [objectAssign]
      exact keysOf_objectAssign_nodup (setKey acc k v) rest (keysOf_setKey_nodup h)

theorem attach_all_iff {α : Type _} (l : List α) (p : α → Bool) :
    (l.attach.all fun e => p e.1) = true ↔ ∀ e ∈ l, p e = true := by
  rw [List.all_eq_true]
  constructor
  · intro h e he
    exact h ⟨e, he⟩ (List.mem_attach l ⟨e, he⟩)
  · intro h x _
    exact h x.1 x.2

theorem snakeShaped_arr_iff (elems : List JsonVal) :
    snakeShaped (.arr elems) = true ↔ ∀ e ∈ elems, snakeShaped e = true := by
  rw [snakeShaped]
  exact attach_all_iff elems snakeShaped

theorem snakeShaped_obj_iff (entries : List (String × JsonVal)) :
    snakeShaped (.obj entries) = true ↔
      (keysOf entries).Nodup ∧ (∀ kv ∈ entries, isSnakeKey kv.1 = true) ∧
        (∀ kv ∈ entries, snakeShaped kv.2 = true) := by
  rw [snakeShaped, Bool.and_eq_true, Bool.and_eq_true]
  rw [attach_all_iff entries fun kv => snakeShaped kv.2]
  rw [decide_eq_true_iff, List.all_eq_true]
  constructor
  · rintro ⟨⟨h1, h2⟩, h3⟩
    exact ⟨h1, fun kv hkv => h2 kv hkv, h3⟩
  · rintro ⟨h1, h2, h3⟩
    exact ⟨⟨h1, fun kv hkv => h2 kv hkv⟩, h3⟩

/-- Key transformation with an idempotent key function is idempotent. -/
theorem transformKeys_idem (f : String → String) (hf : ∀ s, f (f s) = f s) :
    ∀ v, transformKeys f (transformKeys f v) = transformKeys f v := by
  intro v
  induction v using JsonVal.inductionOn with
  | hnull => rw [transformKeys_null, transformKeys_null]
  | hbool b => rw [transformKeys_bool, transformKeys_bool]
  | hnum n => rw [transformKeys_num, transformKeys_num]
  | hstr s => rw [transformKeys_str, transformKeys_str]
  | harr elems ih =>
      rw [transformKeys_arr, transformKeys_arr, List.map_map]
      congr 1
      exact List.map_congr_left fun e he => ih e he
  | hobj entries ih =>
      rw [transformKeys_obj, transformKeys_obj]
      congr 1
      have hfix : ∀ kv ∈ objectAssign [] (entries.map fun kv => (f kv.1, transformKeys f kv.2)),
          (f kv.1, transformKeys f kv.2) = kv := by
        intro kv hkv
        rcases mem_objectAssign hkv with h | h
        · exact absurd h (List.not_mem_nil _)
        · rw [List.mem_map] at h
          obtain ⟨kv0, hkv0, rfl⟩ := h
          simp only
          rw [hf, ih kv0 hkv0]
      rw [List.map_congr_left hfix, List.map_id']
      exact objectAssign_id _ (keysOf_objectAssign_nodup [] _ List.nodup_nil)

/-- On snake-shaped values the two key transformations cancel. -/
theorem internalToRest_restToInternal (v : JsonVal) :
    snakeShaped v = true → internalToRest (restToInternal v) = v := by
  unfold internalToRest restToInternal
  induction v using JsonVal.inductionOn with
  | hnull => intro _; rw [transformKeys_null, transformKeys_null]
  | hbool b => intro _; rw [transformKeys_bool, transformKeys_bool]
  | hnum n => intro _; rw [transformKeys_num, transformKeys_num]
  | hstr s => intro _; rw [transformKeys_str, transformKeys_str]
  | harr elems ih =>
      intro h
      rw [transformKeys_arr, transformKeys_arr, List.map_map]
      congr 1
      have hcong : List.map (transformKeys toSnakeCase ∘ transformKeys toCamelCase) elems
          = List.map (fun e => e) elems :=
        List.map_congr_left fun e he => by
          simp only [Function.comp_apply]
          exact ih e he ((snakeShaped_arr_iff elems).mp h e he)
      rw [hcong, List.map_id']
  | hobj entries ih =>
      intro h
      obtain ⟨hnodup, hsnake, hrec⟩ := (snakeShaped_obj_iff entries).mp h
      rw [transformKeys_obj]
      have hkeys : keysOf (entries.map fun kv => (toCamelCase kv.1, transformKeys toCamelCase kv.2)) =
          (keysOf entries).map toCamelCase := by
        unfold keysOf
        rw [List.map_map, List.map_map]
        rfl
      have hnodup2 : (keysOf (entries.map fun kv =>
          (toCamelCase kv.1, transformKeys toCamelCase kv.2))).Nodup := by
        rw [hkeys]
        refine List.Nodup.map_on ?_ hnodup
        intro x hx y hy hxy
        have hxk : isSnakeKey x = true := by
          rw [keysOf, List.mem_map] at hx
          obtain ⟨kv, hkv, rfl⟩ := hx
          exact hsnake kv hkv
        have hyk : isSnakeKey y = true := by
          rw [keysOf, List.mem_map] at hy
          obtain ⟨kv, hkv, rfl⟩ := hy
          exact hsnake kv hkv
        rw [← toSnakeCase_toCamelCase hxk, ← toSnakeCase_toCamelCase hyk, hxy]
      rw [objectAssign_id _ hnodup2, transformKeys_obj, List.map_map]
      congr 1
      have heach : ∀ kv ∈ entries,
          ((fun kv : String × JsonVal => (toSnakeCase kv.1, transformKeys toSnakeCase kv.2)) ∘
            fun kv : String × JsonVal => (toCamelCase kv.1, transformKeys toCamelCase kv.2)) kv
            = kv := by
        intro kv hkv
        simp only [Function.comp_apply]
        rw [toSnakeCase_toCamelCase (hsnake kv hkv), ih kv hkv (hrec kv hkv)]
      rw [List.map_congr_left heach, List.map_id']
      exact objectAssign_id entries hnodup

example : jsParseInt10 "10" = some 10 := by decide

example : jsParseInt10 "invalid" = none := by decide

example : jsParseInt10 "-3" = some (-3) := by decide

example : jsParseInt10 "3.7" = some 3 := by decide

/-! ## Supporting lemmas for the claims -/

theorem mapErrorToStatus_ne_NO_CONTENT (errorCode : Int) :
    mapErrorToStatus errorCode ≠ HTTP_STATUS.NO_CONTENT := by
  unfold mapErrorToStatus
  split_ifs <;> decide

theorem errorReply_eq (error : Thrown) :
    errorReply error =
      .reply (mapErrorToStatus (normalizeError error).code)
        (some (.rpcError (normalizeError error).toJSONRPCError)) := by
  unfold errorReply sendResponse
  rw [if_neg (mapErrorToStatus_ne_NO_CONTENT _)]

theorem keysOf_map_transform (f : String → String) (g : JsonVal → JsonVal)
    (entries : List (String × JsonVal)) :
    keysOf (entries.map fun kv => (f kv.1, g kv.2)) = (keysOf entries).map f := by
  unfold keysOf
  rw [List.map_map, List.map_map]
  rfl

/-! ## The claims -/

/-- C1: for every error raised before headers are sent, `handleError`
sends an HTTP status determined solely by the error's taxonomy code:
ParseError/InvalidRequest/InvalidParams map to 400,
MethodNotFound/TaskNotFound to 404, TaskNotCancelable to 409,
PushNotificationNotSupported/UnsupportedOperation to 501, Unauthorized to
401; every error that is not a taxonomy `A2AError` is first wrapped as
InternalError (mapped to 500 by the default branch), and the response
body exposes only the taxonomy code and the human-readable message. -/
theorem claim_C1 :
    (∀ (w : Bool) (error : Thrown),
        handleError false w error = .respond (errorReply error)) ∧
    (∀ error : Thrown,
        errorReply error =
          .reply (mapErrorToStatus (normalizeError error).code)
            (some (.rpcError ⟨(normalizeError error).code, (normalizeError error).message⟩))) ∧
    mapErrorToStatus A2A_ERROR_CODE.PARSE_ERROR = 400 ∧
    mapErrorToStatus A2A_ERROR_CODE.INVALID_REQUEST = 400 ∧
    mapErrorToStatus A2A_ERROR_CODE.INVALID_PARAMS = 400 ∧
    mapErrorToStatus A2A_ERROR_CODE.METHOD_NOT_FOUND = 404 ∧
    mapErrorToStatus A2A_ERROR_CODE.TASK_NOT_FOUND = 404 ∧
    mapErrorToStatus A2A_ERROR_CODE.TASK_NOT_CANCELABLE = 409 ∧
    mapErrorToStatus A2A_ERROR_CODE.PUSH_NOTIFICATION_NOT_SUPPORTED = 501 ∧
    mapErrorToStatus A2A_ERROR_CODE.UNSUPPORTED_OPERATION = 501 ∧
    mapErrorToStatus A2A_ERROR_CODE.UNAUTHORIZED = 401 ∧
    (∀ e, normalizeError (.a2a e) = e) ∧
    (∀ m, normalizeError (.jsError m) = A2AError.internalError m) ∧
    normalizeError .nonError = A2AError.internalError "Internal server error" ∧
    mapErrorToStatus A2A_ERROR_CODE.INTERNAL_ERROR = 500 := by
  refine ⟨fun w error => rfl, fun error => errorReply_eq error, ?_, ?_, ?_, ?_, ?_, ?_, ?_,
    ?_, ?_, fun e => rfl, fun m => rfl, rfl, ?_⟩ <;> decide

/-- C10: `restToInternal` and `internalToRest` are idempotent — a second
application of the same direction of key conversion never changes the
result, because camel-casing removes every underscore-before-lowercase
occurrence without creating new ones and snake-casing removes every
uppercase letter without creating new ones. -/
theorem claim_C10 (v : JsonVal) :
    restToInternal (restToInternal v) = restToInternal v ∧
    internalToRest (internalToRest v) = internalToRest v := by
  constructor
  · unfold restToInternal
    exact transformKeys_idem toCamelCase toCamelCase_idem v
  · unfold internalToRest
    exact transformKeys_idem toSnakeCase toSnakeCase_idem v

/-- C2: for every value whose object keys are (at every nesting level)
pure snake_case keys — the snake half of a snake_case/camelCase pair —
converting the keys to camelCase and back restores the value exactly:
`internalToRest (restToInternal v) = v`. -/
theorem claim_C2 (v : JsonVal) (h : snakeShaped v = true) :
    internalToRest (restToInternal v) = v :=
  internalToRest_restToInternal v h

theorem claim_C2_witness :
    snakeShaped (.obj [("message_id", .str "abc")]) = true ∧
    internalToRest (restToInternal (.obj [("message_id", .str "abc")])) =
      .obj [("message_id", .str "abc")] := by
  have h : snakeShaped (JsonVal.obj [("message_id", .str "abc")]) = true := by
    rw [snakeShaped_obj_iff]
    refine ⟨by decide, by decide, ?_⟩
    intro kv hkv
    rw [List.mem_singleton] at hkv
    subst hkv
    rw [snakeShaped]
  exact ⟨h, claim_C2 _ h⟩

/-- C5: both directions transform only object keys, recursively at every
nesting depth; arrays are mapped element-wise preserving length and
order; every non-object value (null, booleans, numbers, strings) is
returned unchanged; the directions are symmetric (snake→camel inbound
via `toCamelCase`, camel→snake outbound via `toSnakeCase`).  The object
equation is stated under distinctness of the transformed keys, which
makes the JS `result[key] = value` loop a plain element-wise map. -/
theorem claim_C5 :
    (restToInternal .null = .null) ∧
    (∀ b, restToInternal (.bool b) = .bool b) ∧
    (∀ n, restToInternal (.num n) = .num n) ∧
    (∀ s, restToInternal (.str s) = .str s) ∧
    (∀ elems : List JsonVal, restToInternal (.arr elems) = .arr (elems.map restToInternal)) ∧
    (∀ elems : List JsonVal, (elems.map restToInternal).length = elems.length) ∧
    (∀ entries : List (String × JsonVal), ((keysOf entries).map toCamelCase).Nodup →
        restToInternal (.obj entries) =
          .obj (entries.map fun kv => (toCamelCase kv.1, restToInternal kv.2))) ∧
    (internalToRest .null = .null) ∧
    (∀ b, internalToRest (.bool b) = .bool b) ∧
    (∀ n, internalToRest (.num n) = .num n) ∧
    (∀ s, internalToRest (.str s) = .str s) ∧
    (∀ elems : List JsonVal, internalToRest (.arr elems) = .arr (elems.map internalToRest)) ∧
    (∀ elems : List JsonVal, (elems.map internalToRest).length = elems.length) ∧
    (∀ entries : List (String × JsonVal), ((keysOf entries).map toSnakeCase).Nodup →
        internalToRest (.obj entries) =
          .obj (entries.map fun kv => (toSnakeCase kv.1, internalToRest kv.2))) := by
  unfold restToInternal internalToRest
  refine ⟨transformKeys_null _, transformKeys_bool _, transformKeys_num _,
    transformKeys_str _, transformKeys_arr _, fun elems => List.length_map _ _, ?_,
    transformKeys_null _, transformKeys_bool _, transformKeys_num _,
    transformKeys_str _, transformKeys_arr _, fun elems => List.length_map _ _, ?_⟩
  · intro entries h
    rw [transformKeys_obj]
    congr 1
    apply objectAssign_id
    rw [keysOf_map_transform]
    exact h
  · intro entries h
    rw [transformKeys_obj]
    congr 1
    apply objectAssign_id
    rw [keysOf_map_transform]
    exact h

theorem claim_C5_witness :
    ((keysOf [("a_b", JsonVal.null)]).map toCamelCase).Nodup ∧
    restToInternal (.obj [("a_b", .null)]) = .obj [("aB", .null)] ∧
    ((keysOf [("aB", JsonVal.null)]).map toSnakeCase).Nodup ∧
    internalToRest (.obj [("aB", .null)]) = .obj [("a_b", .null)] := by
  have h1 : ((keysOf [("a_b", JsonVal.null)]).map toCamelCase).Nodup := by decide
  have h2 : ((keysOf [("aB", JsonVal.null)]).map toSnakeCase).Nodup := by decide
  refine ⟨h1, ?_, h2, ?_⟩
  · rw [claim_C5.2.2.2.2.2.2.1 [("a_b", JsonVal.null)] h1, List.map_cons, List.map_nil]
    rw [show toCamelCase "a_b" = "aB" from by decide, claim_C5.1]
  · rw [claim_C5.2.2.2.2.2.2.2.2.2.2.2.2.2 [("aB", JsonVal.null)] h2,
      List.map_cons, List.map_nil]
    rw [show toSnakeCase "aB" = "a_b" from by decide, claim_C5.2.2.2.2.2.2.2.1]

theorem matchTaskAction_taskId_ne {path : String} {tid act : String}
    (h : matchTaskAction path = some (tid, act)) : tid ≠ "" := by
  simp only [matchTaskAction] at h
  split at h
  · split at h
    · split at h
      · rename_i hcond
        rw [Option.some.injEq, Prod.mk.injEq] at h
        intro he
        apply hcond.1
        have hd := congrArg String.data (h.1.trans he)
        simpa using hd
      · exact absurd h (by simp)
    · exact absurd h (by simp)
  · exact absurd h (by simp)

/-- C3 (amended): the `stream`, `subscribe` and push-config *creation*
requests are gated by a capability check that runs before any executor-
or store-backed handler operation (only the static `getAgentCard` read
happens), raising `UnsupportedOperation` (streaming) or
`PushNotificationNotSupported` (push notifications) as a plain JSON
error — never mid-stream.  The push-config fetch/list/delete routes,
however, perform no adapter-level capability check (see the
counterexample). -/
theorem claim_C3 :
    (∀ (o : RequestHandlerOracle) (clock : Nat → Nat) (body : JsonVal),
        o.getAgentCard.hasCapability .streaming = false →
        messageActionRoute o clock "/v1/message:stream" body =
          ([.getAgentCard],
            errorReply (.a2a (A2AError.unsupportedOperation "Agent does not support streaming")))) ∧
    (∀ (o : RequestHandlerOracle) (clock : Nat → Nat) (path tid : String),
        o.getAgentCard.hasCapability .streaming = false →
        matchTaskAction path = some (tid, ACTION.SUBSCRIBE) →
        taskActionRoute o clock path =
          ([.getAgentCard],
            errorReply (.a2a (A2AError.unsupportedOperation "Agent does not support streaming")))) ∧
    (∀ (o : RequestHandlerOracle) (tid : String) (body : JsonVal),
        o.getAgentCard.hasCapability .pushNotifications = false →
        createPushConfigRoute o tid body =
          ([.getAgentCard], errorReply (.a2a A2AError.pushNotificationNotSupported))) ∧
    HandlerCall.isExecutorOrStore .getAgentCard = false ∧
    (∀ m, errorReply (.a2a (A2AError.unsupportedOperation m)) =
        .reply 501 (some (.rpcError ⟨A2A_ERROR_CODE.UNSUPPORTED_OPERATION, m⟩))) ∧
    errorReply (.a2a A2AError.pushNotificationNotSupported) =
      .reply 501 (some (.rpcError ⟨A2A_ERROR_CODE.PUSH_NOTIFICATION_NOT_SUPPORTED,
        "Push notifications are not supported"⟩)) := by
  refine ⟨?_, ?_, ?_, rfl, ?_, ?_⟩
  · intro o clock body hcap
    rw [messageActionRoute,
      show matchMessageAction "/v1/message:stream" = some "stream" from by decide]
    dsimp only
    rw [if_pos (show "stream" = ACTION.STREAM from rfl), requireCapability,
      if_neg (by rw [hcap]; exact Bool.false_ne_true)]
  · intro o clock path tid hcap hmatch
    rw [taskActionRoute, hmatch]
    dsimp only
    rw [if_neg (matchTaskAction_taskId_ne hmatch),
      if_neg (show ¬(ACTION.SUBSCRIBE = ACTION.CANCEL) from by decide),
      if_pos rfl, requireCapability, if_neg (by rw [hcap]; exact Bool.false_ne_true)]
  · intro o tid body hcap
    rw [createPushConfigRoute, requireCapability,
      if_neg (by rw [hcap]; exact Bool.false_ne_true)]
  · intro m
    rw [errorReply_eq]
    rfl
  · rw [errorReply_eq]
    rfl

theorem claim_C3_witness :
    noCapOracle.getAgentCard.hasCapability .streaming = false ∧
    noCapOracle.getAgentCard.hasCapability .pushNotifications = false ∧
    matchTaskAction "/v1/tasks/task-1:subscribe" = some ("task-1", ACTION.SUBSCRIBE) ∧
    messageActionRoute noCapOracle (fun i => i) "/v1/message:stream" .null =
      ([.getAgentCard],
        errorReply (.a2a (A2AError.unsupportedOperation "Agent does not support streaming"))) ∧
    taskActionRoute noCapOracle (fun i => i) "/v1/tasks/task-1:subscribe" =
      ([.getAgentCard],
        errorReply (.a2a (A2AError.unsupportedOperation "Agent does not support streaming"))) ∧
    createPushConfigRoute noCapOracle "task-1" .null =
      ([.getAgentCard], errorReply (.a2a A2AError.pushNotificationNotSupported)) :=
  ⟨rfl, rfl, by decide,
   claim_C3.1 noCapOracle (fun i => i) .null rfl,
   claim_C3.2.1 noCapOracle (fun i => i) "/v1/tasks/task-1:subscribe" "task-1" rfl (by decide),
   claim_C3.2.2.1 noCapOracle "task-1" .null rfl⟩

/-- C3 counterexample: a push-notification action without the capability
that is *not* rejected — `GET .../pushNotificationConfigs` on an agent
card with `pushNotifications: false` goes straight to the store-backed
`listTaskPushNotificationConfigs` and answers 200; no
`PushNotificationNotSupported` is raised and no capability check runs. -/
theorem claim_C3_counterexample :
    dispatch noCapOracle (fun i => i)
      ⟨.get, "/v1/tasks/task-1/pushNotificationConfigs", .null, none⟩ =
      .routed [.listTaskPushNotificationConfigs] (.reply 200 (some (.json .null))) ∧
    HandlerCall.isExecutorOrStore .listTaskPushNotificationConfigs = true ∧
    noCapCard.hasCapability .pushNotifications = false :=
  ⟨rfl, rfl, rfl⟩

/-- C4: on success the response status codes are 200 for agent-card
fetch, task fetch, streaming start — both `POST /v1/message:stream` and
`POST /v1/tasks/{id}:subscribe`, whose responses are the Express default
status flushed with the SSE headers — and push-config fetch/list; 201
for message send and push-config create; 202 for accepted cancel; 204
with the body omitted for push-config delete.  The action routes are
quantified over every path their route pattern matches and every task
id. -/
theorem claim_C4 :
    (∀ (o : RequestHandlerOracle) (v : JsonVal),
        o.getAuthenticatedExtendedAgentCard = .ok v →
        getCardRoute o = ([.getAuthenticatedExtendedAgentCard], .reply 200 (some (.json v)))) ∧
    (∀ (o : RequestHandlerOracle) (tid : String) (v : JsonVal),
        o.getTask tid none = .ok v →
        getTaskRoute o tid none = ([.getTask], .reply 200 (some (.json v)))) ∧
    (∀ (o : RequestHandlerOracle) (clock : Nat → Nat) (path : String) (body : JsonVal)
        (st : StreamRun),
        matchMessageAction path = some ACTION.STREAM →
        o.getAgentCard.hasCapability .streaming = true →
        o.sendMessageStream body = .ok st →
        messageActionRoute o clock path body =
          ([.getAgentCard, .sendMessageStream], .sse (sendStreamResponse clock st)) ∧
        RouteResponse.statusOf (.sse (sendStreamResponse clock st)) = 200) ∧
    (∀ (o : RequestHandlerOracle) (clock : Nat → Nat) (path : String) (body v : JsonVal),
        matchMessageAction path = some ACTION.SEND →
        o.sendMessage body = .ok v →
        messageActionRoute o clock path body =
          ([.sendMessage], .reply 201 (some (.json v)))) ∧
    (∀ (o : RequestHandlerOracle) (clock : Nat → Nat) (path tid : String) (v : JsonVal),
        matchTaskAction path = some (tid, ACTION.CANCEL) →
        o.cancelTask tid = .ok v →
        taskActionRoute o clock path =
          ([.cancelTask], .reply 202 (some (.json v)))) ∧
    (∀ (o : RequestHandlerOracle) (clock : Nat → Nat) (path tid : String) (st : StreamRun),
        matchTaskAction path = some (tid, ACTION.SUBSCRIBE) →
        o.getAgentCard.hasCapability .streaming = true →
        o.resubscribe tid = .ok st →
        taskActionRoute o clock path =
          ([.getAgentCard, .resubscribe], .sse (sendStreamResponse clock st)) ∧
        RouteResponse.statusOf (.sse (sendStreamResponse clock st)) = 200) ∧
    (∀ (o : RequestHandlerOracle) (tid : String) (body v : JsonVal),
        o.getAgentCard.hasCapability .pushNotifications = true →
        o.setTaskPushNotificationConfig body tid = .ok v →
        createPushConfigRoute o tid body =
          ([.getAgentCard, .setTaskPushNotificationConfig], .reply 201 (some (.json v)))) ∧
    (∀ (o : RequestHandlerOracle) (tid : String) (v : JsonVal),
        o.listTaskPushNotificationConfigs tid = .ok v →
        listPushConfigsRoute o tid =
          ([.listTaskPushNotificationConfigs], .reply 200 (some (.json v)))) ∧
    (∀ (o : RequestHandlerOracle) (tid cid : String) (v : JsonVal),
        o.getTaskPushNotificationConfig tid cid = .ok v →
        getPushConfigRoute o tid cid =
          ([.getTaskPushNotificationConfig], .reply 200 (some (.json v)))) ∧
    (∀ (o : RequestHandlerOracle) (tid cid : String),
        o.deleteTaskPushNotificationConfig tid cid = .ok () →
        deletePushConfigRoute o tid cid =
          ([.deleteTaskPushNotificationConfig], .reply 204 none)) := by
  refine ⟨?_, ?_, ?_, ?_, ?_, ?_, ?_, ?_, ?_, ?_⟩
  · intro o v h
    rw [getCardRoute, h]
    rfl
  · intro o tid v h
    rw [getTaskRoute, h]
    rfl
  · intro o clock path body st hmatch hcap h
    refine ⟨?_, rfl⟩
    rw [messageActionRoute, hmatch]
    dsimp only
    rw [if_pos (show ACTION.STREAM = ACTION.STREAM from rfl), requireCapability,
      if_pos (by rw [hcap]), h]
  · intro o clock path body v hmatch h
    rw [messageActionRoute, hmatch]
    dsimp only
    rw [if_neg (show ¬(ACTION.SEND = ACTION.STREAM) from by decide),
      if_pos (show ACTION.SEND = ACTION.SEND from rfl), h]
    rfl
  · intro o clock path tid v hmatch h
    rw [taskActionRoute, hmatch]
    dsimp only
    rw [if_neg (matchTaskAction_taskId_ne hmatch),
      if_pos (show ACTION.CANCEL = ACTION.CANCEL from rfl), h]
    rfl
  · intro o clock path tid st hmatch hcap h
    refine ⟨?_, rfl⟩
    rw [taskActionRoute, hmatch]
    dsimp only
    rw [if_neg (matchTaskAction_taskId_ne hmatch),
      if_neg (show ¬(ACTION.SUBSCRIBE = ACTION.CANCEL) from by decide),
      if_pos (show ACTION.SUBSCRIBE = ACTION.SUBSCRIBE from rfl), requireCapability,
      if_pos (by rw [hcap]), h]
  · intro o tid body v hcap h
    rw [createPushConfigRoute, requireCapability, if_pos (by rw [hcap]), h]
    rfl
  · intro o tid v h
    rw [listPushConfigsRoute, h]
    rfl
  · intro o tid cid v h
    rw [getPushConfigRoute, h]
    rfl
  · intro o tid cid h
    rw [deletePushConfigRoute, h]
    rfl

theorem claim_C4_witness :
    getCardRoute demoOracle = ([.getAuthenticatedExtendedAgentCard], .reply 200 (some (.json .null))) ∧
    getTaskRoute demoOracle "task-1" none = ([.getTask], .reply 200 (some (.json .null))) ∧
    messageActionRoute demoOracle (fun i => i) "/v1/message:stream" .null =
      ([.getAgentCard, .sendMessageStream], .sse (sendStreamResponse (fun i => i) ⟨[], none⟩)) ∧
    messageActionRoute demoOracle (fun i => i) "/v1/message:send" .null =
      ([.sendMessage], .reply 201 (some (.json .null))) ∧
    taskActionRoute demoOracle (fun i => i) "/v1/tasks/task-1:cancel" =
      ([.cancelTask], .reply 202 (some (.json .null))) ∧
    taskActionRoute demoOracle (fun i => i) "/v1/tasks/task-1:subscribe" =
      ([.getAgentCard, .resubscribe], .sse (sendStreamResponse (fun i => i) ⟨[], none⟩)) ∧
    RouteResponse.statusOf (.sse (sendStreamResponse (fun i => i) ⟨[], none⟩)) = 200 ∧
    createPushConfigRoute demoOracle "task-1" .null =
      ([.getAgentCard, .setTaskPushNotificationConfig], .reply 201 (some (.json .null))) ∧
    listPushConfigsRoute demoOracle "task-1" =
      ([.listTaskPushNotificationConfigs], .reply 200 (some (.json .null))) ∧
    getPushConfigRoute demoOracle "task-1" "config-1" =
      ([.getTaskPushNotificationConfig], .reply 200 (some (.json .null))) ∧
    deletePushConfigRoute demoOracle "task-1" "config-1" =
      ([.deleteTaskPushNotificationConfig], .reply 204 none) :=
  ⟨claim_C4.1 demoOracle .null rfl,
   claim_C4.2.1 demoOracle "task-1" .null rfl,
   (claim_C4.2.2.1 demoOracle (fun i => i) "/v1/message:stream" .null ⟨[], none⟩
     (by decide) rfl rfl).1,
   claim_C4.2.2.2.1 demoOracle (fun i => i) "/v1/message:send" .null .null (by decide) rfl,
   claim_C4.2.2.2.2.1 demoOracle (fun i => i) "/v1/tasks/task-1:cancel" "task-1" .null
     (by decide) rfl,
   (claim_C4.2.2.2.2.2.1 demoOracle (fun i => i) "/v1/tasks/task-1:subscribe" "task-1"
     ⟨[], none⟩ (by decide) rfl rfl).1,
   (claim_C4.2.2.2.2.2.1 demoOracle (fun i => i) "/v1/tasks/task-1:subscribe" "task-1"
     ⟨[], none⟩ (by decide) rfl rfl).2,
   claim_C4.2.2.2.2.2.2.1 demoOracle "task-1" .null .null rfl rfl,
   claim_C4.2.2.2.2.2.2.2.1 demoOracle "task-1" .null rfl,
   claim_C4.2.2.2.2.2.2.2.2.1 demoOracle "task-1" "config-1" .null rfl,
   claim_C4.2.2.2.2.2.2.2.2.2 demoOracle "task-1" "config-1" rfl⟩

/-- C6 counterexample: the claim promises 400 for every non-integer
`historyLength`, but `parseInt("3.7", 10)` parses the leading `3`:
`GET /v1/tasks/task-1?historyLength=3.7` answers 200 and passes
`historyLength = 3` to `getTask` (the oracle here echoes the received
`historyLength` back as the task body). -/
theorem claim_C6_counterexample :
    jsParseInt10 "3.7" = some 3 ∧
    getTaskRoute demoOracle "task-1" (some "3.7") =
      ([.getTask], .reply 200 (some (.json (.num 3)))) :=
  ⟨rfl, rfl⟩

/-- C6 (amended): with the parameter absent, `getTask` is called without
a `historyLength`; a value whose `parseInt` is NaN, or parses negative,
is answered 400 (`InvalidParams`) without calling `getTask`; any other
value has its *leading integer* parse passed to `getTask` (trailing
non-numeric characters are ignored, e.g. `3.7` parses as 3) and the
returned task is answered 200. -/
theorem claim_C6 :
    (∀ (o : RequestHandlerOracle) (tid : String) (v : JsonVal),
        o.getTask tid none = .ok v →
        getTaskRoute o tid none = ([.getTask], .reply 200 (some (.json v)))) ∧
    (∀ (o : RequestHandlerOracle) (tid raw : String),
        jsParseInt10 raw = none →
        getTaskRoute o tid (some raw) =
          ([], errorReply (.a2a (A2AError.invalidParams "historyLength must be a valid integer")))) ∧
    (∀ (o : RequestHandlerOracle) (tid raw : String) (n : Int),
        jsParseInt10 raw = some n → n < 0 →
        getTaskRoute o tid (some raw) =
          ([], errorReply (.a2a (A2AError.invalidParams "historyLength must be non-negative")))) ∧
    (∀ (o : RequestHandlerOracle) (tid raw : String) (n : Int) (v : JsonVal),
        jsParseInt10 raw = some n → ¬n < 0 → o.getTask tid (some n) = .ok v →
        getTaskRoute o tid (some raw) = ([.getTask], .reply 200 (some (.json v)))) ∧
    (∀ m, errorReply (.a2a (A2AError.invalidParams m)) =
        .reply 400 (some (.rpcError ⟨A2A_ERROR_CODE.INVALID_PARAMS, m⟩))) := by
  refine ⟨?_, ?_, ?_, ?_, ?_⟩
  · intro o tid v h
    rw [getTaskRoute, h]
    rfl
  · intro o tid raw h
    rw [getTaskRoute, parseHistoryLength, h]
  · intro o tid raw n h hneg
    rw [getTaskRoute, parseHistoryLength, h]
    dsimp only
    rw [if_pos hneg]
  · intro o tid raw n v h hneg hok
    rw [getTaskRoute, parseHistoryLength, h]
    dsimp only
    rw [if_neg hneg]
    dsimp only
    rw [hok]
    rfl
  · intro m
    rw [errorReply_eq]
    rfl

theorem claim_C6_witness :
    getTaskRoute demoOracle "task-1" none = ([.getTask], .reply 200 (some (.json .null))) ∧
    getTaskRoute demoOracle "task-1" (some "invalid") =
      ([], errorReply (.a2a (A2AError.invalidParams "historyLength must be a valid integer"))) ∧
    getTaskRoute demoOracle "task-1" (some "-5") =
      ([], errorReply (.a2a (A2AError.invalidParams "historyLength must be non-negative"))) ∧
    getTaskRoute demoOracle "task-1" (some "10") =
      ([.getTask], .reply 200 (some (.json (.num 10)))) ∧
    errorReply (.a2a (A2AError.invalidParams "m")) =
      .reply 400 (some (.rpcError ⟨A2A_ERROR_CODE.INVALID_PARAMS, "m"⟩)) :=
  ⟨claim_C6.1 demoOracle "task-1" .null rfl,
   claim_C6.2.1 demoOracle "task-1" "invalid" rfl,
   claim_C6.2.2.1 demoOracle "task-1" "-5" (-5) rfl (by decide),
   claim_C6.2.2.2.1 demoOracle "task-1" "10" 10 (.num 10) rfl (by decide) rfl,
   claim_C6.2.2.2.2 "m"⟩

/-- C7 counterexample: `POST /v1/tasks/task-1:unknown` does *not* fall
through to the generic not-found — the task-action pattern `([a-z]+)`
matches any alphabetic action, the route handler runs, and it answers
404 with a taxonomy `MethodNotFound` error body. -/
theorem claim_C7_counterexample :
    dispatch demoOracle (fun i => i) ⟨.post, "/v1/tasks/task-1:unknown", .null, none⟩ =
      .routed []
        (.reply 404 (some (.rpcError ⟨A2A_ERROR_CODE.METHOD_NOT_FOUND,
          "Unknown task action: unknown"⟩))) ∧
    dispatch demoOracle (fun i => i) ⟨.post, "/v1/tasks/task-1:unknown", .null, none⟩ ≠
      .fallthrough :=
  ⟨rfl, fun h => nomatch h⟩

/-- C7 (amended): a POST whose path matches no registered route pattern
falls through to the generic not-found with no taxonomy body — in
particular `/v1/message:{action}` with any action other than
`send`/`stream` (the message pattern only admits those), and
`/v1/tasks/{id}:{action}` with a non-alphabetic action.  But an
*alphabetic* unmatched task action (or a case-variant such as `:SEND`)
is captured by the route pattern and produces a taxonomy
`MethodNotFound` error body instead. -/
theorem claim_C7 :
    (∀ (o : RequestHandlerOracle) (clock : Nat → Nat) (path : String) (body : JsonVal)
        (q : Option String),
        matchMessageAction path = none → matchTaskAction path = none →
        matchPushConfigs path = none →
        dispatch o clock ⟨.post, path, body, q⟩ = .fallthrough) ∧
    matchMessageAction "/v1/message:unknown" = none ∧
    matchTaskAction "/v1/tasks/task-1:foo2" = none ∧
    (∀ (o : RequestHandlerOracle) (clock : Nat → Nat) (path tid act : String)
        (body : JsonVal) (q : Option String),
        matchMessageAction path = none →
        matchTaskAction path = some (tid, act) →
        act ≠ ACTION.CANCEL → act ≠ ACTION.SUBSCRIBE →
        dispatch o clock ⟨.post, path, body, q⟩ =
          .routed []
            (errorReply (.a2a (A2AError.methodNotFound ("Unknown task action: " ++ act))))) ∧
    (∀ (o : RequestHandlerOracle) (clock : Nat → Nat) (path act : String)
        (body : JsonVal) (q : Option String),
        matchMessageAction path = some act →
        act ≠ ACTION.STREAM → act ≠ ACTION.SEND →
        dispatch o clock ⟨.post, path, body, q⟩ =
          .routed []
            (errorReply (.a2a (A2AError.methodNotFound ("Unknown message action: " ++ act))))) := by
  refine ⟨?_, by decide, by decide, ?_, ?_⟩
  · intro o clock path body q h1 h2 h3
    rw [dispatch]
    dsimp only
    rw [if_neg (by rw [h1]; exact Bool.false_ne_true),
      if_neg (by rw [h2]; exact Bool.false_ne_true), h3]
  · intro o clock path tid act body q h1 h2 hc hs
    rw [dispatch]
    dsimp only
    rw [if_neg (by rw [h1]; exact Bool.false_ne_true),
      if_pos (by rw [h2]; exact rfl)]
    rw [taskActionRoute, h2]
    dsimp only
    rw [if_neg (matchTaskAction_taskId_ne h2), if_neg hc, if_neg hs]
  · intro o clock path act body q h1 hs hd
    rw [dispatch]
    dsimp only
    rw [if_pos (by rw [h1]; exact rfl)]
    rw [messageActionRoute, h1]
    dsimp only
    rw [if_neg hs, if_neg hd]

theorem claim_C7_witness :
    dispatch demoOracle (fun i => i) ⟨.post, "/v1/message:unknown", .null, none⟩ =
      .fallthrough ∧
    dispatch demoOracle (fun i => i) ⟨.post, "/v1/tasks/task-1:foo2", .null, none⟩ =
      .fallthrough ∧
    dispatch demoOracle (fun i => i) ⟨.post, "/v1/tasks/task-1:retry", .null, none⟩ =
      .routed []
        (errorReply (.a2a (A2AError.methodNotFound "Unknown task action: retry"))) ∧
    dispatch demoOracle (fun i => i) ⟨.post, "/V1/Message:SEND", .null, none⟩ =
      .routed []
        (errorReply (.a2a (A2AError.methodNotFound "Unknown message action: SEND"))) :=
  ⟨claim_C7.1 demoOracle (fun i => i) "/v1/message:unknown" .null none
     (by decide) (by decide) (by decide),
   claim_C7.1 demoOracle (fun i => i) "/v1/tasks/task-1:foo2" .null none
     (by decide) (by decide) (by decide),
   claim_C7.2.2.2.1 demoOracle (fun i => i) "/v1/tasks/task-1:retry" "task-1" "retry"
     .null none (by decide) (by decide) (by decide) (by decide),
   claim_C7.2.2.2.2 demoOracle (fun i => i) "/V1/Message:SEND" "SEND" .null none
     (by decide) (by decide) (by decide)⟩

theorem id_line_ne_error_event (s : String) : ("id: " ++ s) ≠ "event: error\n" := by
  intro h
  have hd := congrArg String.data h
  rw [String.data_append] at hd
  simp at hd

theorem data_line_ne_error_event (s : String) : ("data: " ++ s) ≠ "event: error\n" := by
  intro h
  have hd := congrArg String.data h
  rw [String.data_append] at hd
  simp at hd

theorem countP_writeEvents : ∀ (clock : Nat → Nat) (i : Nat) (events : List JsonVal),
    (writeEvents clock i events).countP isErrorEventFrame = 0
  | _, _, [] => rfl
  | clock, i, e :: rest => by
      have h1 : ¬(isErrorEventFrame (SSEItem.write ("id: " ++ toString (clock i) ++ "\n")) = true) := by
        simp only [isErrorEventFrame, decide_eq_true_eq]
        exact id_line_ne_error_event _
      have h2 : ¬(isErrorEventFrame (SSEItem.write ("data: " ++ jsonSerialize e ++ "\n\n")) = true) := by
        simp only [isErrorEventFrame, decide_eq_true_eq]
        exact data_line_ne_error_event _
      rw [writeEvents, List.countP_cons, List.countP_cons, if_neg h1, if_neg h2,
        Nat.add_zero, Nat.add_zero]
      exact countP_writeEvents clock (i + 1) rest


/-- C8: for every error raised while an SSE stream is consumed (headers
already sent), the adapter normalizes it to the taxonomy (wrapping
non-taxonomy failures as `InternalError`), writes exactly one complete
named `error` frame carrying the serialized error, and then ends the
connection; a post-headers `handleError` only closes the connection and
never attempts a second status line; the failure is never dropped
silently (the error frame is always written before the close). -/
theorem claim_C8 :
    (∀ (clock : Nat → Nat) (events : List JsonVal) (streamError : Thrown),
        sendStreamResponse clock ⟨events, some streamError⟩ =
          (SSE_HEADERS.map fun kv => SSEItem.header kv.1 kv.2) ++ [SSEItem.flushHeaders] ++
          writeEvents clock 0 events ++ errorFrames streamError ++ [SSEItem.endConn]) ∧
    (∀ streamError, errorFrames streamError =
        [.write "event: error\n",
         .write ("data: " ++ serializeRpcError
           (normalizeStreamError streamError).toJSONRPCError ++ "\n\n")]) ∧
    (∀ (clock : Nat → Nat) (events : List JsonVal) (streamError : Thrown),
        (sendStreamResponse clock ⟨events, some streamError⟩).getLast? = some .endConn) ∧
    (∀ (clock : Nat → Nat) (events : List JsonVal) (streamError : Thrown),
        (sendStreamResponse clock ⟨events, some streamError⟩).countP isErrorEventFrame = 1) ∧
    (∀ e, normalizeStreamError (.a2a e) = e) ∧
    (∀ m, normalizeStreamError (.jsError m) = A2AError.internalError m) ∧
    normalizeStreamError .nonError = A2AError.internalError "Streaming error" ∧
    (∀ (w : Bool) (error : Thrown),
        handleError true w error = if !w then .closeConnection else .alreadyClosed) := by
  refine ⟨fun clock events streamError => rfl, fun streamError => rfl, ?_, ?_,
    fun e => rfl, fun m => rfl, rfl, fun w error => rfl⟩
  · intro clock events streamError
    rw [sendStreamResponse]
    exact List.getLast?_concat _
  · intro clock events streamError
    rw [sendStreamResponse]
    rw [List.countP_append, List.countP_append, List.countP_append, List.countP_append]
    rw [countP_writeEvents]
    norm_num [SSE_HEADERS, errorFrames, isErrorEventFrame, List.countP_cons, List.countP_nil]
    exact data_line_ne_error_event _

/-- The per-event ids of one stream are the clock readings at positions
0, 1, 2, …; with a monotone clock the resulting id sequence is
non-decreasing. -/
theorem chain_clock_enumFrom (clock : Nat → Nat)
    (hmono : ∀ a b, a ≤ b → clock a ≤ clock b) :
    ∀ (i : Nat) (events : List JsonVal),
      List.Chain' (fun a b => a ≤ b) ((List.enumFrom i events).map fun p => clock p.1)
  | _, [] => List.chain'_nil
  | i, [_] => List.chain'_singleton _
  | i, e :: f :: rest => by
      rw [List.enumFrom, List.enumFrom, List.map_cons, List.map_cons, List.chain'_cons]
      refine ⟨hmono i (i + 1) (Nat.le_succ i), ?_⟩
      have := chain_clock_enumFrom clock hmono (i + 1) (f :: rest)
      rwa [List.enumFrom, List.map_cons] at this

/-- C9: every SSE response first sets exactly the headers
`Content-Type: text/event-stream`, `Cache-Control: no-cache`,
`Connection: keep-alive` and `X-Accel-Buffering: no` (proxy buffering
disabled), and flushes them before any event write; each streamed event
is written as an `id:` line (stamped with the `Date.now()` reading of
that iteration) followed by its `data:` line; with a non-decreasing
clock the id sequence of one stream is monotonically non-decreasing. -/
theorem claim_C9 :
    (∀ (clock : Nat → Nat) (stream : StreamRun),
        (sendStreamResponse clock stream).take 5 =
          [.header "Content-Type" "text/event-stream",
           .header "Cache-Control" "no-cache",
           .header "Connection" "keep-alive",
           .header "X-Accel-Buffering" "no",
           .flushHeaders]) ∧
    (∀ (clock : Nat → Nat) (i : Nat) (events : List JsonVal),
        writeEvents clock i events =
          (List.enumFrom i events).flatMap fun p =>
            [.write ("id: " ++ toString (clock p.1) ++ "\n"),
             .write ("data: " ++ jsonSerialize p.2 ++ "\n\n")]) ∧
    (∀ (clock : Nat → Nat) (events : List JsonVal),
        (∀ a b, a ≤ b → clock a ≤ clock b) →
        List.Chain' (fun a b => a ≤ b)
          ((List.enumFrom 0 events).map fun p => clock p.1)) := by
  refine ⟨fun clock stream => rfl, ?_, ?_⟩
  · intro clock i events
    induction events generalizing i with
    | nil => rfl
    | cons e rest ih =>
        rw [writeEvents, List.enumFrom, List.flatMap_cons, ih (i + 1)]
        rfl
  · intro clock events hmono
    exact chain_clock_enumFrom clock hmono 0 events

theorem claim_C9_witness :
    (sendStreamResponse (fun i => i) ⟨[], none⟩).take 5 =
      [.header "Content-Type" "text/event-stream",
       .header "Cache-Control" "no-cache",
       .header "Connection" "keep-alive",
       .header "X-Accel-Buffering" "no",
       .flushHeaders] ∧
    (writeEvents (fun i => i) 0 [JsonVal.null] =
      (List.enumFrom 0 [JsonVal.null]).flatMap fun p =>
        [.write ("id: " ++ toString p.1 ++ "\n"),
         .write ("data: " ++ jsonSerialize p.2 ++ "\n\n")]) ∧
    List.Chain' (fun a b => a ≤ b)
      ((List.enumFrom 0 [JsonVal.null, JsonVal.bool true]).map fun p => p.1) :=
  ⟨claim_C9.1 (fun i => i) ⟨[], none⟩,
   claim_C9.2.1 (fun i => i) 0 [JsonVal.null],
   claim_C9.2.2 (fun i => i) [JsonVal.null, JsonVal.bool true] (fun _ _ h => h)⟩

end A2A
